import Mathlib

/-!
Verification of the checked subprocess execution and pipeline layer of
`osgbuild/utils.py`, via a shallow embedding of its functions into Lean.

Process spawning is modelled by an oracle `run : Cmd → Int` that gives the
exit status the operating system reports for a command; the executors'
control flow (status aggregation, error construction, stream wiring,
environment construction, kwargs handling) is translated line by line
from the Python source.
-/

set_option autoImplicit false

namespace Osgbuild

/-- Python exception kinds that the embedded code can raise. -/
inductive PyExc where
  | typeError
  | osError
  | valueError
  | indexError
  deriving DecidableEq, Repr

/-- A command specification: either a raw string or an argument vector,
mirroring the two forms accepted by `subprocess.Popen`. -/
inductive Cmd where
  | str (s : String)
  | argv (xs : List String)
  deriving DecidableEq, Repr

/-- Embeds the `CalledProcessError` class of `utils.py`: carries the
attempted command, the nonzero return code, and the captured output
(`none` when nothing was captured). -/
structure CalledProcessError where
  process : Cmd
  returncode : Int
  output : Option String
  deriving DecidableEq, Repr

/-- Embeds line 164 of `utils.py`:
`return list(filter(None, rets))[0] if any(rets) else 0`.
`filter(None, rets)` keeps the truthy (nonzero) statuses; `any(rets)` is
true iff some status is nonzero. -/
def pipeline_status (rets : List Int) : Int :=
  if rets.any (fun r => r ≠ 0) then ((rets.filter (fun r => r ≠ 0)).headD 0) else 0

/-- Stated from the spec's words, for comparison with `pipeline_status`:
the first nonzero status encountered scanning left to right, zero if every
status is zero. -/
def firstNonzeroSpec (rets : List Int) : Int :=
  match rets.find? (fun r => r ≠ 0) with
  | some s => s
  | none => 0

/-- Where a spawned process's standard input or output comes from:
a caller-supplied value (`inherit` models Python `None`, `handle` a
caller-supplied file object), `pipeMake` models `subprocess.PIPE`, and
`fromPipe i` models `pipes[i].stdout`, the read end of the pipe created
for command `i`. -/
inductive Redir where
  | inherit
  | handle (n : Nat)
  | pipeMake
  | fromPipe (i : Nat)
  deriving DecidableEq, Repr

/-- One `subprocess.Popen` call: the command and the stdin/stdout wiring
it was spawned with. -/
structure SpawnSpec where
  cmd : Cmd
  stdin : Redir
  stdout : Redir
  deriving DecidableEq, Repr

/-- Embeds `unchecked_call`: a wrapper around `subprocess.call` that
returns the raw exit status, with stdin/stdout exactly as supplied.
The pair records the single spawn performed and its status. -/
def unchecked_call (run : Cmd → Int) (cmd : Cmd) (sin sout : Redir) :
    SpawnSpec × Int :=
  (⟨cmd, sin, sout⟩, run cmd)

/-- Embeds `checked_call`: calls the unchecked form and raises
`CalledProcessError(cmd, err, None)` if the status is truthy (nonzero). -/
def checked_call (run : Cmd → Int) (cmd : Cmd) : Except CalledProcessError Unit :=
  let err := (unchecked_call run cmd .inherit .inherit).2
  if err ≠ 0 then .error ⟨cmd, err, none⟩ else .ok ()

/-- Embeds the spawn loop of `unchecked_pipeline` (lines 153-161):
command `i` gets stdin from the caller when `i = 0`, else from the
previous command's output pipe; it gets stdout from the caller when
`i` is last, else a fresh `subprocess.PIPE`. -/
def pipelineSpawns (cmds : List Cmd) (sin sout : Redir) : List SpawnSpec :=
  let final := cmds.length - 1
  cmds.enum.map fun p =>
    ⟨p.2,
     if p.1 = 0 then sin else .fromPipe (p.1 - 1),
     if p.1 = final then sout else .pipeMake⟩

/-- Embeds `unchecked_pipeline`: spawns every command with the wiring of
`pipelineSpawns`, collects statuses in spawn (list-index) order — so the
result does not depend on OS-level completion order — and aggregates them
with `pipeline_status`. -/
def unchecked_pipeline (run : Cmd → Int) (cmds : List Cmd) (sin sout : Redir) :
    List SpawnSpec × Int :=
  (pipelineSpawns cmds sin sout, pipeline_status (cmds.map run))

/-- Claim C1: the pipeline's aggregate status is 0 when every collected
status is 0, and otherwise equals the first nonzero status in pipeline
(left-to-right index) order; in particular `[0, 0, 5, 0]` yields `5`.
Completion-order independence holds because the aggregate is a function
of the status list indexed in pipeline order. -/
theorem pipeline_status_first_nonzero :
    (∀ rets : List Int, pipeline_status rets = firstNonzeroSpec rets) ∧
    pipeline_status [0, 0, 5, 0] = 5 := by
  constructor
  · intro rets
    induction rets with
    | nil => rfl
    | cons a t ih =>
      by_cases ha : a = 0
      · subst ha
        simpa [pipeline_status, firstNonzeroSpec] using ih
      · simp [pipeline_status, firstNonzeroSpec, ha]
  · rfl

/-- Claim C2: `checked_call` returns normally when the command's exit
status is 0; when the status is `N ≠ 0` it raises `CalledProcessError`
whose `returncode` field is `N` and whose `output` field is `none`. -/
theorem checked_call_spec (run : Cmd → Int) (cmd : Cmd) :
    (run cmd = 0 → checked_call run cmd = .ok ()) ∧
    (run cmd ≠ 0 → checked_call run cmd = .error ⟨cmd, run cmd, none⟩) := by
  constructor
  · intro h
    simp [checked_call, unchecked_call, h]
  · intro h
    simp [checked_call, unchecked_call, h]

/-- Witness for C2 at concrete commands: a status-0 command returns
normally, a status-7 command raises with returncode 7 and no output. -/
theorem checked_call_spec_witness :
    checked_call (fun _ => 0) (Cmd.argv ["true"]) = .ok () ∧
    checked_call (fun _ => 7) (Cmd.argv ["false"]) =
      .error ⟨Cmd.argv ["false"], 7, none⟩ :=
  ⟨(checked_call_spec (fun _ => 0) (Cmd.argv ["true"])).1 rfl,
   (checked_call_spec (fun _ => 7) (Cmd.argv ["false"])).2 (by decide)⟩

/-- Claim C5: a length-1 pipeline behaves identically to the unchecked
single-command executor: it performs exactly the one spawn with stdin and
stdout exactly as supplied, and returns that command's exit status. -/
theorem pipeline_singleton_eq_call (run : Cmd → Int) (c : Cmd) (sin sout : Redir) :
    unchecked_pipeline run [c] sin sout =
      ([(unchecked_call run c sin sout).1], (unchecked_call run c sin sout).2) := by
  simp [unchecked_pipeline, pipelineSpawns, unchecked_call, pipeline_status,
    List.enum]
  by_cases h : run c = 0 <;> simp [h]

/-- Shell whitespace per `shlex.whitespace` (space, tab, carriage return,
newline). -/
def isShWs (c : Char) : Bool :=
  c = ' ' ∨ c = '\t' ∨ c = '\r' ∨ c = '\n'

/-- Lexer states of `shlex` in POSIX mode with `whitespace_split`:
between tokens, inside a token, inside single quotes, inside double
quotes, after a backslash outside quotes, after a backslash inside
double quotes. -/
inductive LexSt where
  | ws
  | word
  | sq
  | dq
  | escW
  | escD
  deriving DecidableEq, Repr

/-- The token-reading loop of Python's `shlex` in POSIX mode with
`whitespace_split = True` (the configuration used by `shlex.split`):
whitespace separates tokens, single quotes are literal, a backslash
outside quotes escapes any character, and inside double quotes a
backslash escapes only `"` and `\` (otherwise it stays in the token).
`quoted` records whether the current token entered a quote state, so an
empty quoted token `''` is still emitted. An unterminated quote or a
trailing backslash raises `ValueError`. -/
def shlexRun : List Char → LexSt → String → Bool → List String →
    Except PyExc (List String)
  | [], .ws, _, _, acc => .ok acc.reverse
  | [], .word, tok, quoted, acc =>
      if tok = "" ∧ ¬quoted then .ok acc.reverse
      else .ok (tok :: acc).reverse
  | [], .sq, _, _, _ => .error .valueError
  | [], .dq, _, _, _ => .error .valueError
  | [], .escW, _, _, _ => .error .valueError
  | [], .escD, _, _, _ => .error .valueError
  | c :: rest, .ws, _, _, acc =>
      if isShWs c then shlexRun rest .ws "" false acc
      else if c = '\'' then shlexRun rest .sq "" true acc
      else if c = '"' then shlexRun rest .dq "" true acc
      else if c = '\\' then shlexRun rest .escW "" false acc
      else shlexRun rest .word (String.mk [c]) false acc
  | c :: rest, .word, tok, quoted, acc =>
      if isShWs c then
        if tok = "" ∧ ¬quoted then shlexRun rest .ws "" false acc
        else shlexRun rest .ws "" false (tok :: acc)
      else if c = '\'' then shlexRun rest .sq tok true acc
      else if c = '"' then shlexRun rest .dq tok true acc
      else if c = '\\' then shlexRun rest .escW tok quoted acc
      else shlexRun rest .word (tok.push c) quoted acc
  | c :: rest, .sq, tok, quoted, acc =>
      if c = '\'' then shlexRun rest .word tok quoted acc
      else shlexRun rest .sq (tok.push c) quoted acc
  | c :: rest, .dq, tok, quoted, acc =>
      if c = '"' then shlexRun rest .word tok quoted acc
      else if c = '\\' then shlexRun rest .escD tok quoted acc
      else shlexRun rest .dq (tok.push c) quoted acc
  | c :: rest, .escW, tok, quoted, acc =>
      shlexRun rest .word (tok.push c) quoted acc
  | c :: rest, .escD, tok, quoted, acc =>
      if c = '"' ∨ c = '\\' then shlexRun rest .dq (tok.push c) quoted acc
      else shlexRun rest .dq ((tok.push '\\').push c) quoted acc

/-- Embeds `shlex.split` as called on line 215 of `utils.py`: tokenize a
command string by shell quoting and splitting rules. -/
def shlex_split (s : String) : Except PyExc (List String) :=
  shlexRun s.data .ws "" false []

/-- Embeds lines 213-215 of `checked_backtick`:
`if isinstance(cmd, str) and 'shell' not in kwargs: cmd = shlex.split(cmd)`.
`hasShell` is the presence of the `shell` key in the kwargs dict. The
resulting command is what is handed to `subprocess.Popen`; since `shell`
is absent from the kwargs in that case, the argument vector is spawned
directly, not through a shell. -/
def prepare_cmd (cmd : Cmd) (hasShell : Bool) : Except PyExc Cmd :=
  match cmd with
  | .str s =>
      if ¬hasShell then do
        let toks ← shlex_split s
        pure (.argv toks)
      else pure cmd
  | .argv xs => pure (.argv xs)

/-- Claim C3: a string command without the `shell` option is tokenized by
shell-quoting/splitting rules into an argument vector before spawning;
in particular `"echo hello world"` becomes exactly
`["echo", "hello", "world"]` and is not passed to a shell. -/
theorem backtick_tokenizes_string :
    (∀ (s : String) (toks : List String), shlex_split s = .ok toks →
      prepare_cmd (.str s) false = .ok (.argv toks)) ∧
    prepare_cmd (.str "echo hello world") false =
      .ok (.argv ["echo", "hello", "world"]) := by
  constructor
  · intro s toks h
    simp [prepare_cmd, h]
  · rfl

/-- Witness for C3: the general tokenization property applied at the
concrete command string `"echo hello world"`. -/
theorem backtick_tokenizes_string_witness :
    prepare_cmd (.str "echo hello world") false =
      .ok (.argv ["echo", "hello", "world"]) :=
  backtick_tokenizes_string.1 "echo hello world" ["echo", "hello", "world"] rfl

/-- A byte, as captured from a subprocess. -/
abbrev Byte := Fin 256

/-- The latin-1 (ISO-8859-1) codec: byte `b` decodes to the Unicode code
point of value `b`. Every byte value 0-255 is a valid latin-1 character,
so the codec never rejects a byte; the `Option` records the possibility
of rejection that the error handler below would cover. -/
def latin1DecodeByte (b : Byte) : Option Char :=
  some (Char.ofNat b.val)

/-- A hexadecimal digit character for `n < 16`. -/
def hexDigit (n : Nat) : Char :=
  Char.ofNat (if n < 10 then 48 + n else 87 + n)

/-- The `backslashreplace` error handler: an undecodable byte is replaced
by the visible escape `\xHH`. -/
def backslashEscape (b : Byte) : List Char :=
  ['\\', 'x', hexDigit (b.val / 16), hexDigit (b.val % 16)]

/-- Decoding a byte sequence with a per-byte codec and an error handler
for bytes the codec rejects, as `bytes.decode(encoding, errors)` does for
a single-byte encoding. -/
def decodeWith (dec : Byte → Option Char) (esc : Byte → List Char) :
    List Byte → List Char
  | [] => []
  | b :: rest =>
      (match dec b with
       | some c => [c]
       | none => esc b) ++ decodeWith dec esc rest

/-- Embeds `to_str` of `utils.py` applied to captured bytes:
`strlike.decode("latin-1", "backslashreplace")`. Total by construction —
it is a function on arbitrary byte lists and raises nothing. -/
def to_str (bs : List Byte) : String :=
  ⟨decodeWith latin1DecodeByte backslashEscape bs⟩

/-- Whether `b` is a UTF-8 continuation byte (`0x80`-`0xBF`). -/
def utf8Cont (b : Byte) : Bool :=
  128 ≤ b.val ∧ b.val < 192

/-- UTF-8 validity of a byte sequence, per RFC 3629: ASCII bytes stand
alone; lead bytes `0xC2`-`0xF4` require the right number of continuation
bytes with the restricted ranges that exclude overlong forms and
surrogates; everything else (for example `0xFF`) is invalid. Used to
state what "not valid text" means for captured bytes. -/
def utf8Valid : List Byte → Bool
  | [] => true
  | b :: rest =>
      if b.val < 128 then utf8Valid rest
      else if 194 ≤ b.val ∧ b.val ≤ 223 then
        match rest with
        | c :: r => utf8Cont c && utf8Valid r
        | [] => false
      else if b.val = 224 then
        match rest with
        | c :: c2 :: r =>
            (decide (160 ≤ c.val ∧ c.val < 192)) && utf8Cont c2 && utf8Valid r
        | _ => false
      else if (225 ≤ b.val ∧ b.val ≤ 236) ∨ b.val = 238 ∨ b.val = 239 then
        match rest with
        | c :: c2 :: r => utf8Cont c && utf8Cont c2 && utf8Valid r
        | _ => false
      else if b.val = 237 then
        match rest with
        | c :: c2 :: r =>
            (decide (128 ≤ c.val ∧ c.val < 160)) && utf8Cont c2 && utf8Valid r
        | _ => false
      else if b.val = 240 then
        match rest with
        | c :: c2 :: c3 :: r =>
            (decide (144 ≤ c.val ∧ c.val < 192)) && utf8Cont c2 && utf8Cont c3 &&
              utf8Valid r
        | _ => false
      else if 241 ≤ b.val ∧ b.val ≤ 243 then
        match rest with
        | c :: c2 :: c3 :: r =>
            utf8Cont c && utf8Cont c2 && utf8Cont c3 && utf8Valid r
        | _ => false
      else if b.val = 244 then
        match rest with
        | c :: c2 :: c3 :: r =>
            (decide (128 ≤ c.val ∧ c.val < 144)) && utf8Cont c2 && utf8Cont c3 &&
              utf8Valid r
        | _ => false
      else false

/-- Counterexample to C4 as stated: the byte sequence `[0xFF]` is not
valid text (not valid UTF-8), yet `to_str` decodes it to the single
character U+00FF with no backslash escape marker anywhere in the result —
latin-1 accepts every byte, so the `backslashreplace` handler never
fires. -/
theorem to_str_no_escape_marker_counterexample :
    utf8Valid [(255 : Byte)] = false ∧
    '\\' ∉ (to_str [(255 : Byte)]).data := by
  constructor
  · rfl
  · decide

/-- Claim C4 amended: decoding captured bytes is total — `to_str` is a
function on arbitrary byte sequences and never raises — and each byte
decodes via latin-1 to the code point of equal value, so no escape
marker is ever produced for invalid text (the `backslashreplace` handler
is configured but unreachable). -/
theorem to_str_latin1_total (bs : List Byte) :
    (to_str bs).data = bs.map (fun b => Char.ofNat b.val) := by
  induction bs with
  | nil => rfl
  | cons b rest ih =>
      simp only [to_str, List.map_cons] at *
      simpa [decodeWith, latin1DecodeByte] using ih

/-- An environment, modelling a Python string-to-string dict as an
association list with the first binding of a key authoritative. -/
abbrev Env := List (String × String)

/-- Dict lookup: the value at the first binding of `k`, if any. -/
def dict_get (d : Env) (k : String) : Option String :=
  (d.find? (fun p => p.1 = k)).map (fun p => p.2)

/-- Dict update `d[k] = v`: replace the value at `k` in place if the key
is present, else append the new binding — Python dict assignment
semantics over the association-list model. -/
def dict_upsert (d : Env) (k v : String) : Env :=
  if d.any (fun p => p.1 = k) then
    d.map (fun p => if p.1 = k then (k, v) else p)
  else d ++ [(k, v)]

/-- Embeds `dict(base, LC_ALL='C', LANG='C')` from line 224 of
`utils.py`: a copy of `base` with the two locale-forcing keys set to
`"C"`. -/
def clocale_env (base : Env) : Env :=
  dict_upsert (dict_upsert base "LC_ALL" "C") "LANG" "C"

/-- Embeds line 223-224 of `checked_backtick`:
`if sp_kwargs.pop('clocale', True): sp_kwargs['env'] = dict(sp_kwargs.pop('env', os.environ), LC_ALL='C', LANG='C')`.
The child's environment is the overlay of the base environment (the
caller-supplied `env` option, else `os.environ`) when `clocale` is
enabled; otherwise whatever `env` the caller supplied passes through. -/
def backtick_child_env (clocale : Bool) (envOpt : Option Env) (osEnviron : Env) :
    Option Env :=
  if clocale then some (clocale_env (envOpt.getD osEnviron)) else envOpt

theorem dict_get_map_same (k v : String) :
    ∀ d : Env, d.any (fun p => p.1 = k) = true →
      dict_get (d.map (fun p => if p.1 = k then (k, v) else p)) k = some v := by
  intro d h
  induction d with
  | nil => simp at h
  | cons p t ih =>
      by_cases hp : p.1 = k
      · simp [dict_get, List.find?, hp]
      · simp only [List.any_cons, hp] at h
        simpa [dict_get, List.find?, hp] using ih (by simpa using h)

theorem dict_get_map_other (k v k' : String) (hk : k' ≠ k) :
    ∀ d : Env,
      dict_get (d.map (fun p => if p.1 = k then (k, v) else p)) k' =
        dict_get d k' := by
  intro d
  induction d with
  | nil => rfl
  | cons p t ih =>
      by_cases hp : p.1 = k
      · have h1 : ¬((k : String) = k') := fun he => hk he.symm
        have h2 : ¬(p.1 = k') := by rw [hp]; exact h1
        simpa [dict_get, List.find?, hp, h1, h2] using ih
      · by_cases hp' : p.1 = k'
        · simp [dict_get, List.find?, hp, hp', hk]
        · simpa [dict_get, List.find?, hp, hp'] using ih

theorem dict_get_append_other (k v k' : String) (hk : k' ≠ k) :
    ∀ d : Env, dict_get (d ++ [(k, v)]) k' = dict_get d k' := by
  intro d
  have h1 : ¬((k : String) = k') := fun he => hk he.symm
  induction d with
  | nil => simp [dict_get, List.find?, h1]
  | cons p t ih =>
      by_cases hp' : p.1 = k'
      · simp [dict_get, List.find?, hp']
      · simpa [dict_get, List.find?, hp'] using ih

theorem dict_get_append_same (k v : String) :
    ∀ d : Env, ¬(d.any (fun p => p.1 = k) = true) →
      dict_get (d ++ [(k, v)]) k = some v := by
  intro d h
  induction d with
  | nil => simp [dict_get, List.find?]
  | cons p t ih =>
      simp only [List.any_cons, Bool.or_eq_true, not_or] at h
      have hp : ¬(p.1 = k) := by simpa using h.1
      simpa [dict_get, List.find?, hp] using ih (by simpa using h.2)

theorem dict_get_upsert_same (d : Env) (k v : String) :
    dict_get (dict_upsert d k v) k = some v := by
  unfold dict_upsert
  by_cases h : d.any (fun p => p.1 = k)
  · simpa [h] using dict_get_map_same k v d h
  · simpa [h] using dict_get_append_same k v d h

theorem dict_get_upsert_other (d : Env) (k v k' : String) (hk : k' ≠ k) :
    dict_get (dict_upsert d k v) k' = dict_get d k' := by
  unfold dict_upsert
  by_cases h : d.any (fun p => p.1 = k)
  · simpa [h] using dict_get_map_other k v k' hk d
  · simpa [h] using dict_get_append_other k v k' hk d

/-- Claim C6: with `clocale` enabled (the default), the child's
environment is the base environment (the caller-supplied `env` option if
present, else the current process environment) overlaid with
`LC_ALL="C"` and `LANG="C"`; every other variable of the base
environment is preserved unchanged. -/
theorem backtick_env_clocale_overlay (envOpt : Option Env) (osEnviron : Env)
    (k : String) :
    dict_get ((backtick_child_env true envOpt osEnviron).getD []) k =
      (if k = "LC_ALL" ∨ k = "LANG" then some "C"
       else dict_get (envOpt.getD osEnviron) k) := by
  simp only [backtick_child_env, if_pos, Option.getD_some]
  by_cases hl : k = "LANG"
  · simp [clocale_env, hl, dict_get_upsert_same]
  · by_cases ha : k = "LC_ALL"
    · rw [clocale_env, dict_get_upsert_other _ _ _ _ hl]
      simp [ha, dict_get_upsert_same]
    · rw [clocale_env, dict_get_upsert_other _ _ _ _ hl,
        dict_get_upsert_other _ _ _ _ ha]
      simp [ha, hl]

/-- Process-wide mutable state touched by the directory helpers: the
current working directory and the module directory stack `__dir_stack`. -/
structure ProcState where
  cwd : String
  dirStack : List String
  deriving DecidableEq, Repr

/-- Embeds the `chdir` context manager of `utils.py` (lines 570-575)
applied to a scoped block `body`. The body runs with the working
directory set to `directory` and ends either normally or with an
exception. Mirroring the generator: `os.chdir(olddir)` is the statement
after the `yield`, so it runs only when the body finishes normally; an
exception propagates out of the `with` block without reaching it. -/
def chdir_cm (directory : String) (body : ProcState → ProcState × Option PyExc)
    (s : ProcState) : ProcState × Option PyExc :=
  let olddir := s.cwd
  match body { s with cwd := directory } with
  | (s2, none) => ({ s2 with cwd := olddir }, none)
  | (s2, some e) => (s2, some e)

/-- Claim C7 fails on the code (the spec's design notes flag this as a
latent bug): when the scoped block raises, the previous working
directory is not restored. Concretely, entering `chdir "/b"` from
`cwd = "/a"` with a body that raises leaves the working directory at
`"/b"`, not `"/a"`. -/
theorem chdir_cm_no_restore_on_error :
    (chdir_cm "/b" (fun s => (s, some PyExc.valueError)) ⟨"/a", []⟩).1.cwd = "/b"
    ∧ (chdir_cm "/b" (fun s => (s, some PyExc.valueError)) ⟨"/a", []⟩).2 =
        some PyExc.valueError
    ∧ "/b" ≠ "/a" := by
  refine ⟨rfl, rfl, by decide⟩

/-- Embeds `pushd` of `utils.py`: read the current directory, change to
`newDir` (which raises `OSError` when the process cannot change there,
leaving the state untouched), then append the old directory to the
module stack. `ok` says which directories the process can change to. -/
def pushd (ok : String → Bool) (newDir : String) (s : ProcState) :
    ProcState × Option PyExc :=
  let oldDir := s.cwd
  if ok newDir then
    ({ cwd := newDir, dirStack := s.dirStack ++ [oldDir] }, none)
  else (s, some .osError)

/-- Embeds `popd` of `utils.py`: pop the topmost (last) entry of the
module stack and change to it; the stack is popped even if the chdir
fails, and an empty stack raises `IndexError`. -/
def popd (ok : String → Bool) (s : ProcState) : ProcState × Option PyExc :=
  match s.dirStack.getLast? with
  | none => (s, some .indexError)
  | some d =>
      if ok d then ({ cwd := d, dirStack := s.dirStack.dropLast }, none)
      else ({ s with dirStack := s.dirStack.dropLast }, some .osError)

/-- Claim C10: for every directory the process can change to, `pushd`
then `popd` is a round trip on the ambient state: the working directory
and the module directory stack both return to their values before the
`pushd`, and neither call raises. -/
theorem pushd_popd_roundtrip (ok : String → Bool) (d : String) (s : ProcState)
    (hd : ok d = true) (hback : ok s.cwd = true) :
    (pushd ok d s).2 = none ∧ popd ok (pushd ok d s).1 = (s, none) := by
  constructor
  · simp [pushd, hd]
  · simp [pushd, popd, hd, hback, List.getLast?_concat, List.dropLast_concat]

/-- Witness for C10 at a concrete state: pushing `"/b"` from
`cwd = "/a"` with stack `["/x"]` and popping returns exactly the
original state. -/
theorem pushd_popd_roundtrip_witness :
    (pushd (fun _ => true) "/b" ⟨"/a", ["/x"]⟩).2 = none ∧
    popd (fun _ => true) (pushd (fun _ => true) "/b" ⟨"/a", ["/x"]⟩).1 =
      (⟨"/a", ["/x"]⟩, none) :=
  pushd_popd_roundtrip (fun _ => true) "/b" ⟨"/a", ["/x"]⟩ rfl rfl

/-- Worker for `pysplit`: walk the characters accumulating the current
word (reversed), emitting it at each whitespace run. -/
def pysplitAux : List Char → List Char → List String
  | [], tok => if tok = [] then [] else [String.mk tok.reverse]
  | c :: rest, tok =>
      if c.isWhitespace then
        if tok = [] then pysplitAux rest []
        else String.mk tok.reverse :: pysplitAux rest []
      else pysplitAux rest (c :: tok)

/-- Python `str.split()` with no arguments: split on runs of whitespace,
dropping empty pieces. -/
def pysplit (s : String) : List String :=
  pysplitAux s.data []

/-- Continuation of Python's integer-literal digit run after its first
digit: `digit (["_"] digit)*` — each underscore must sit between two
digits, so no trailing or doubled underscores. -/
def validTail : List Char → Bool
  | [] => true
  | c :: rest =>
      if c = '_' then
        match rest with
        | [] => false
        | c2 :: r => c2.isDigit && validTail r
      else c.isDigit && validTail rest

/-- Python `int(str)`: strip surrounding whitespace, allow one optional
sign, then require a digit run `digit (["_"] digit)*` (single
underscores allowed between digits, as in `int("1_2") = 12`); anything
else raises `ValueError`. -/
def pyToInt (s : String) : Except PyExc Int :=
  let t := ((s.data.dropWhile Char.isWhitespace).reverse.dropWhile
    Char.isWhitespace).reverse
  let signed : Bool × List Char :=
    match t with
    | '-' :: ds => (true, ds)
    | '+' :: ds => (false, ds)
    | ds => (false, ds)
  match signed.2 with
  | [] => .error .valueError
  | c :: rest =>
      if c.isDigit && validTail rest then
        let n : Nat := ((c :: rest).filter (fun d => d ≠ '_')).foldl
          (fun a d => a * 10 + (d.toNat - 48)) 0
        .ok (if signed.1 then -(n : Int) else (n : Int))
      else .error .valueError

/-- Embeds `backtick("stty size").split()[1]`: the `stty` oracle is the
outcome of the backtick call (it may raise, e.g. `OSError` when the
binary is missing); its output is whitespace-split and indexing `[1]`
raises `IndexError` when fewer than two fields are present. -/
def stty_columns (stty : Except PyExc String) : Except PyExc String :=
  match stty with
  | .error e => .error e
  | .ok out =>
      match (pysplit out)[1]? with
      | some w => .ok w
      | none => .error .indexError

/-- Embeds the body of the `try` block of `get_screen_columns` (lines
455-458). Python evaluates the default argument of `os.environ.get`
eagerly, so the `stty` query runs (and can raise) even when `COLUMNS`
is set; then the chosen string is converted with `int` and values below
10 are replaced by the default 80. -/
def screen_attempt (env : String → Option String) (stty : Except PyExc String) :
    Except PyExc Int :=
  match stty_columns stty with
  | .error e => .error e
  | .ok dflt =>
      match pyToInt ((env "COLUMNS").getD dflt) with
      | .error e => .error e
      | .ok columns => .ok (if columns < 10 then 80 else columns)

/-- Embeds `get_screen_columns`: the `try` body with an
`except (TypeError, OSError)` handler that substitutes the default 80.
Any other exception (for example `ValueError` from `int`, or
`IndexError` from the `[1]` index) propagates to the caller. -/
def get_screen_columns (env : String → Option String)
    (stty : Except PyExc String) : Except PyExc Int :=
  match screen_attempt env stty with
  | .ok n => .ok n
  | .error .typeError => .ok 80
  | .error .osError => .ok 80
  | .error e => .error e

/-- Counterexample to C8 as stated: with `COLUMNS="abc"` (non-numeric)
and a working terminal query, `get_screen_columns` does not fall back to
80 — the `ValueError` from `int("abc")` is not in the
`except (TypeError, OSError)` list and propagates. -/
theorem get_screen_columns_valueerror_counterexample :
    get_screen_columns (fun k => if k = "COLUMNS" then some "abc" else none)
        (.ok "24 132") = .error .valueError ∧
    .error .valueError ≠ (.ok 80 : Except PyExc Int) := by
  refine ⟨rfl, by simp⟩

/-- Claim C8 amended: the helper returns the width taken from the
`COLUMNS` environment variable or, when `COLUMNS` is unset, from the
terminal-size query; it returns the fallback value of 80 when obtaining
the width fails with a `TypeError` or `OSError`, or when the parsed
width is below 10; other errors — such as the `ValueError` from the
non-numeric `COLUMNS` value `"abc"` — propagate instead of producing
the fallback. -/
theorem get_screen_columns_amended (env : String → Option String)
    (stty : Except PyExc String) (v out w : String) (n : Int) :
    (stty = .ok out → (pysplit out)[1]? = some w →
      env "COLUMNS" = some v → pyToInt v = .ok n → 10 ≤ n →
      get_screen_columns env stty = .ok n) ∧
    (stty = .ok out → (pysplit out)[1]? = some w →
      env "COLUMNS" = some v → pyToInt v = .ok n → n < 10 →
      get_screen_columns env stty = .ok 80) ∧
    (stty = .ok out → (pysplit out)[1]? = some w →
      env "COLUMNS" = none → pyToInt w = .ok n → 10 ≤ n →
      get_screen_columns env stty = .ok n) ∧
    (stty = .ok out → (pysplit out)[1]? = some w →
      env "COLUMNS" = none → pyToInt w = .ok n → n < 10 →
      get_screen_columns env stty = .ok 80) ∧
    (stty = .error .typeError → get_screen_columns env stty = .ok 80) ∧
    (stty = .error .osError → get_screen_columns env stty = .ok 80) ∧
    get_screen_columns (fun k => if k = "COLUMNS" then some "abc" else none)
      (.ok "24 132") = .error .valueError := by
  refine ⟨?_, ?_, ?_, ?_, ?_, ?_, rfl⟩
  · intro hs hw hc hi hn
    have hnot : ¬(n < 10) := by omega
    simp [get_screen_columns, screen_attempt, stty_columns, hs, hw, hc, hi, hnot]
  · intro hs hw hc hi hn
    simp [get_screen_columns, screen_attempt, stty_columns, hs, hw, hc, hi, hn]
  · intro hs hw hc hi hn
    have hnot : ¬(n < 10) := by omega
    simp [get_screen_columns, screen_attempt, stty_columns, hs, hw, hc, hi, hnot]
  · intro hs hw hc hi hn
    simp [get_screen_columns, screen_attempt, stty_columns, hs, hw, hc, hi, hn]
  · intro hs
    simp [get_screen_columns, screen_attempt, stty_columns, hs]
  · intro hs
    simp [get_screen_columns, screen_attempt, stty_columns, hs]

/-- Witness for the amended C8 at concrete inputs: `COLUMNS="1_32"`
(Python digit-separator underscore) with a working `stty` yields 132;
with `COLUMNS` unset the width comes from the terminal query; a queried
width of 5 is clamped to the fallback 80; a missing `stty` binary
(`OSError`) yields the fallback 80; a `TypeError` yields the fallback
80. -/
theorem get_screen_columns_amended_witness :
    get_screen_columns (fun k => if k = "COLUMNS" then some "1_32" else none)
        (.ok "24 80") = .ok 132 ∧
    get_screen_columns (fun _ => none) (.ok "24 132") = .ok 132 ∧
    get_screen_columns (fun _ => none) (.ok "24 5") = .ok 80 ∧
    get_screen_columns (fun k => if k = "COLUMNS" then some "132" else none)
        (.error .osError) = .ok 80 ∧
    get_screen_columns (fun k => if k = "COLUMNS" then some "132" else none)
        (.error .typeError) = .ok 80 := by
  refine ⟨?_, ?_, ?_, ?_, ?_⟩
  · exact (get_screen_columns_amended
      (fun k => if k = "COLUMNS" then some "1_32" else none) (.ok "24 80")
      "1_32" "24 80" "80" 132).1 rfl rfl rfl rfl (by decide)
  · exact (get_screen_columns_amended
      (fun _ => none) (.ok "24 132")
      "" "24 132" "132" 132).2.2.1 rfl rfl rfl rfl (by decide)
  · exact (get_screen_columns_amended
      (fun _ => none) (.ok "24 5")
      "" "24 5" "5" 5).2.2.2.1 rfl rfl rfl rfl (by decide)
  · exact (get_screen_columns_amended
      (fun k => if k = "COLUMNS" then some "132" else none) (.error .osError)
      "132" "" "" 132).2.2.2.2.2.1 rfl
  · exact (get_screen_columns_amended
      (fun k => if k = "COLUMNS" then some "132" else none) (.error .typeError)
      "132" "" "" 132).2.2.2.2.1 rfl

/-- Python values that appear in the kwargs dict of `checked_backtick`. -/
inductive PyVal where
  | boolV (b : Bool)
  | strV (s : String)
  | pipeConst
  | stdoutConst
  | envV (e : Env)
  deriving DecidableEq, Repr

/-- Python truthiness for the values above (`subprocess.PIPE` and
`subprocess.STDOUT` are nonzero integers, hence truthy). -/
def truthy : PyVal → Bool
  | .boolV b => b
  | .strV s => s ≠ ""
  | .pipeConst => true
  | .stdoutConst => true
  | .envV e => e ≠ []

/-- The environment carried by a kwargs value (used after popping the
`env` key, whose value is a mapping). -/
def asEnv : PyVal → Env
  | .envV e => e
  | _ => []

/-- A Python dict object (string keys). -/
abbrev PyDict := List (String × PyVal)

/-- A heap of dict objects: mutation of one dict must not touch any
other, so dicts live behind references (list indices). -/
abbrev Heap := List PyDict

/-- Dereference a dict. -/
def heapGet (h : Heap) (r : Nat) : PyDict :=
  h.getD r []

/-- Overwrite the dict behind a reference. -/
def heapSet (h : Heap) (r : Nat) (d : PyDict) : Heap :=
  h.set r d

/-- `d.copy()`: allocate a fresh dict object with the same entries and
return its reference. -/
def dictCopyOp (h : Heap) (r : Nat) : Heap × Nat :=
  (h ++ [heapGet h r], h.length)

/-- `d.pop(k, dflt)`: remove the binding of `k` from the dict behind `r`
and return its value; return `dflt` and leave the heap unchanged when
the key is absent. -/
def dictPopOp (h : Heap) (r : Nat) (k : String) (dflt : PyVal) :
    Heap × PyVal :=
  let d := heapGet h r
  match d.find? (fun p => p.1 = k) with
  | some p => (heapSet h r (d.filter (fun q => ¬(q.1 = k))), p.2)
  | none => (h, dflt)

/-- Dict update over `PyVal` values, with the in-place-or-append
semantics of `dict_upsert`. -/
def pyDictUpsert (d : PyDict) (k : String) (v : PyVal) : PyDict :=
  if d.any (fun p => p.1 = k) then
    d.map (fun p => if p.1 = k then (k, v) else p)
  else d ++ [(k, v)]

/-- `d[k] = v` on the dict behind `r`. -/
def dictSetOp (h : Heap) (r : Nat) (k : String) (v : PyVal) : Heap :=
  heapSet h r (pyDictUpsert (heapGet h r) k v)

/-- Embeds `if sp_kwargs.pop('err2out', False): sp_kwargs['stderr'] = subprocess.STDOUT`:
store only when the popped flag was truthy. -/
def dictSetIfOp (b : Bool) (h : Heap) (r : Nat) (k : String) (v : PyVal) :
    Heap :=
  if b then dictSetOp h r k v else h

/-- Embeds `if sp_kwargs.pop('clocale', True): sp_kwargs['env'] = dict(sp_kwargs.pop('env', os.environ), LC_ALL='C', LANG='C')`
after the `clocale` flag has been popped: when it was truthy, pop `env`
(defaulting to `os.environ`) and store the locale-forced overlay. -/
def clocaleStepOp (b : Bool) (h : Heap) (r : Nat) (osEnviron : Env) : Heap :=
  if b then
    let p4 := dictPopOp h r "env" (.envV osEnviron)
    dictSetOp p4.1 r "env" (.envV (clocale_env (asEnv p4.2)))
  else h

/-- Embeds lines 217-224 of `checked_backtick`, the kwargs processing:
`sp_kwargs = kwargs.copy()`, then `nostrip`/`err2out`/`clocale`/`env`
are popped from — and `stdout`/`stderr`/`env` stored into — the copy.
Returns the heap, the reference of `sp_kwargs`, and the `nostrip`
flag. -/
def backtick_prologue (h : Heap) (kwargsRef : Nat) (osEnviron : Env) :
    Heap × Nat × Bool :=
  let c := dictCopyOp h kwargsRef
  let sp := c.2
  let p1 := dictPopOp c.1 sp "nostrip" (.boolV false)
  let nostrip := truthy p1.2
  let h3 := dictSetOp p1.1 sp "stdout" .pipeConst
  let p2 := dictPopOp h3 sp "err2out" (.boolV false)
  let h5 := dictSetIfOp (truthy p2.2) p2.1 sp "stderr" .stdoutConst
  let p3 := dictPopOp h5 sp "clocale" (.boolV true)
  let h7 := clocaleStepOp (truthy p3.2) p3.1 sp osEnviron
  (h7, sp, nostrip)

theorem heapGet_set_ne (h : Heap) (r r' : Nat) (d : PyDict) (hne : r ≠ r') :
    heapGet (heapSet h r' d) r = heapGet h r := by
  simp [heapGet, heapSet, List.getD, List.getElem?_set_ne (Ne.symm hne)]

theorem heapGet_append_lt (h : Heap) (d : PyDict) (r : Nat) (hr : r < h.length) :
    heapGet (h ++ [d]) r = heapGet h r := by
  simp [heapGet, List.getD, List.getElem?_append, hr]

theorem heapGet_dictPopOp_ne (h : Heap) (sp : Nat) (k : String) (dflt : PyVal)
    (r : Nat) (hne : r ≠ sp) :
    heapGet (dictPopOp h sp k dflt).1 r = heapGet h r := by
  cases hf : (heapGet h sp).find? (fun p => p.1 = k) with
  | none => simp [dictPopOp, hf]
  | some p => simp [dictPopOp, hf, heapGet_set_ne _ _ _ _ hne]

theorem heapGet_dictSetOp_ne (h : Heap) (sp : Nat) (k : String) (v : PyVal)
    (r : Nat) (hne : r ≠ sp) :
    heapGet (dictSetOp h sp k v) r = heapGet h r :=
  heapGet_set_ne _ _ _ _ hne

theorem heapGet_dictSetIfOp_ne (b : Bool) (h : Heap) (sp : Nat) (k : String)
    (v : PyVal) (r : Nat) (hne : r ≠ sp) :
    heapGet (dictSetIfOp b h sp k v) r = heapGet h r := by
  cases b with
  | false => rfl
  | true => exact heapGet_dictSetOp_ne _ _ _ _ _ hne

theorem heapGet_clocaleStepOp_ne (b : Bool) (h : Heap) (sp : Nat)
    (osEnviron : Env) (r : Nat) (hne : r ≠ sp) :
    heapGet (clocaleStepOp b h sp osEnviron) r = heapGet h r := by
  cases b with
  | false => rfl
  | true =>
      show heapGet (dictSetOp _ sp _ _) r = _
      rw [heapGet_dictSetOp_ne _ _ _ _ _ hne,
        heapGet_dictPopOp_ne _ _ _ _ _ hne]

/-- Claim C9: `checked_backtick` does not mutate the caller's kwargs
dict: it pops `nostrip`, `err2out`, `clocale` and `env` from a copy, so
after the kwargs processing the caller's dict holds exactly the entries
it held before. -/
theorem backtick_prologue_preserves_kwargs (h : Heap) (r : Nat)
    (osEnviron : Env) (hr : r < h.length) :
    heapGet (backtick_prologue h r osEnviron).1 r = heapGet h r := by
  have hne : r ≠ h.length := Nat.ne_of_lt hr
  simp only [backtick_prologue, dictCopyOp]
  rw [heapGet_clocaleStepOp_ne _ _ _ _ _ hne,
    heapGet_dictPopOp_ne _ _ _ _ _ hne,
    heapGet_dictSetIfOp_ne _ _ _ _ _ _ hne,
    heapGet_dictPopOp_ne _ _ _ _ _ hne,
    heapGet_dictSetOp_ne _ _ _ _ _ hne,
    heapGet_dictPopOp_ne _ _ _ _ _ hne]
  exact heapGet_append_lt h _ r hr

/-- Witness for C9 at a concrete heap: a caller kwargs dict holding
`nostrip=True` and an `env` is untouched by the prologue. -/
theorem backtick_prologue_preserves_kwargs_witness :
    heapGet (backtick_prologue
        [[("nostrip", .boolV true), ("env", .envV [("PATH", "/bin")])]]
        0 [("LANG", "de_DE.UTF-8")]).1 0 =
      [("nostrip", .boolV true), ("env", .envV [("PATH", "/bin")])] :=
  backtick_prologue_preserves_kwargs
    [[("nostrip", .boolV true), ("env", .envV [("PATH", "/bin")])]]
    0 [("LANG", "de_DE.UTF-8")] (by decide)

end Osgbuild
